import Mathlib

/-!
Verification of the context-transfer subsystem of the multimind-sdk-js
repository (`src/models.ts`, classes `ContextTransferManager` and
`ContextTransferAPI`).  The TypeScript functions are shallowly embedded as
executable Lean definitions; JavaScript string/array primitives
(`slice`, `split` with a limit, `trim`, `join`, `startsWith`,
`includes`) are modelled by the `js*` helpers below with JavaScript
semantics (negative indices, limit-truncated split, and so on).
-/

namespace MultiMind

/-- JavaScript index normalisation used by `Array.prototype.slice` and
`String.prototype.slice`: a negative index counts from the end and is
clamped at 0; a non-negative index is clamped at the length. -/
def jsStartIdx (n : Nat) (i : Int) : Nat :=
  if i < 0 then ((n : Int) + i).toNat else min i.toNat n

/-- `arr.slice(i)` in JavaScript: drop everything before the normalised
start index.  Note `arr.slice(0)` and `arr.slice(-0)` return the whole
array. -/
def jsSliceFrom (l : List α) (i : Int) : List α :=
  l.drop (jsStartIdx l.length i)

/-- `arr.slice(0, i)` in JavaScript: take everything before the
normalised end index. -/
def jsSliceTo (l : List α) (i : Int) : List α :=
  l.take (jsStartIdx l.length i)

/-- Split a character list at every occurrence of `sep`, keeping empty
fields — the behaviour of JavaScript `String.prototype.split` with a
single-character separator (the source only splits on `':'` and
`'\n'`).  The empty string yields `[""]`. -/
def splitOnChar (sep : Char) : List Char → List (List Char)
  | [] => [[]]
  | x :: t =>
    match splitOnChar sep t, x == sep with
    | r, true => [] :: r
    | [], false => [[x]]
    | h :: rt, false => (x :: h) :: rt

/-- `str.split(sep)` in JavaScript, for a one-character separator. -/
def jsSplitAll (s : String) (sep : Char) : List String :=
  (splitOnChar sep s.data).map (fun cs => (⟨cs⟩ : String))

/-- `str.split(sep, limit)` in JavaScript: the full split truncated to
the first `limit` fields; the remainder of the string is discarded (this
differs from Python's `str.split(sep, maxsplit)`, which keeps the
remainder as the final field). -/
def jsSplit (s : String) (sep : Char) (limit : Nat) : List String :=
  (jsSplitAll s sep).take limit

/-- `str.startsWith(p)` in JavaScript. -/
def jsStartsWith (s p : String) : Bool :=
  p.data.isPrefixOf s.data

/-- Whitespace recognised by our model of `String.prototype.trim`
(ASCII whitespace; all string constants appearing in the embedded code
are ASCII). -/
def isJsWs (c : Char) : Bool :=
  c == ' ' || c == '\t' || c == '\n' || c == '\r' || c == '\x0b' || c == '\x0c'

/-- `String.prototype.trim` on the character list. -/
def jsTrimList (l : List Char) : List Char :=
  ((l.dropWhile isJsWs).reverse.dropWhile isJsWs).reverse

/-- `str.trim()` in JavaScript. -/
def jsTrim (s : String) : String :=
  ⟨jsTrimList s.data⟩

/-- `arr.join(sep)` in JavaScript. -/
def jsJoin (sep : String) : List String → String
  | [] => ""
  | [a] => a
  | a :: b :: t => a ++ sep ++ jsJoin sep (b :: t)

/-- `str.toLowerCase()` (ASCII-adequate model). -/
def jsToLower (s : String) : String :=
  ⟨s.data.map Char.toLower⟩

/-- `hay.includes(needle)` on character lists (`String.prototype.includes`). -/
def hasSubstr : List Char → List Char → Bool
  | [], needle => needle.isEmpty
  | hay@(_ :: t), needle => needle.isPrefixOf hay || hasSubstr t needle

/-- `ConversationMessage` from `models.ts`.  The TypeScript type limits
`role` to the three literals, but the runtime (and the validator, which
counts unknown roles) admits any string, so `role` is a `String`. -/
structure Message where
  role : String
  content : String
deriving DecidableEq, Repr

/-- The fixed keyword list of `isImportantContext` (models.ts:508-511). -/
def importantKeywords : List String :=
  ["system", "setup", "configuration", "requirements", "constraints",
   "important", "note", "warning", "error", "critical", "essential"]

/-- `ContextTransferManager.isImportantContext` (models.ts:507-514). -/
def isImportantContext (content : String) : Bool :=
  importantKeywords.any (fun keyword => hasSubstr (jsToLower content).data keyword.data)

/-- The predicate selecting "important" earlier messages in
`smartExtractContext` (models.ts:489). -/
def isImportantMsg (msg : Message) : Bool :=
  msg.role == "system" || isImportantContext msg.content

/-- `messages.slice(-lastN)` — the "recent" set of `smartExtractContext`
(models.ts:485). -/
def recentOf (messages : List Message) (lastN : Nat) : List Message :=
  jsSliceFrom messages (-(lastN : Int))

/-- The important messages collected from `messages.slice(0, -lastN)` by
the loop of models.ts:488-492. -/
def importantBefore (messages : List Message) (lastN : Nat) : List Message :=
  (jsSliceTo messages (-(lastN : Int))).filter isImportantMsg

/-- `ContextTransferManager.smartExtractContext` (models.ts:482-505). -/
def smartExtractContext (messages : List Message) (lastN : Nat) : List Message :=
  if messages.length ≤ lastN then messages
  else
    let recentMessages := recentOf messages lastN
    let importantContext := importantBefore messages lastN
    if importantContext.isEmpty then recentMessages
    else
      let contextToInclude := jsSliceFrom importantContext (-2)
      contextToInclude ++
        jsSliceFrom recentMessages (-((lastN : Int) - (contextToInclude.length : Int)))

/-- `ContextTransferManager.extractContext` (models.ts:465-480). -/
def extractContext (messages : List Message) (lastN : Nat) (smartExtraction : Bool) :
    List Message :=
  if messages.isEmpty then []
  else if smartExtraction then smartExtractContext messages lastN
  else
    let extractedCount := min lastN messages.length
    jsSliceFrom messages (-(extractedCount : Int))

/-- `ContextTransferManager.createConciseSummary` (models.ts:532-557).
Messages with a role other than the three known ones are skipped by the
`switch`. -/
def createConciseSummary (messages : List Message) : String :=
  let summaryParts := messages.filterMap (fun message =>
    let content :=
      if message.content.length > 500 then
        (⟨message.content.data.take 500⟩ : String) ++ "..."
      else message.content
    if message.role == "user" then some ("User: " ++ content)
    else if message.role == "assistant" then some ("Assistant: " ++ content)
    else if message.role == "system" then some ("System: " ++ content)
    else none)
  jsJoin "\n" summaryParts

/-- `ContextTransferManager.createDetailedSummary` (models.ts:559-580). -/
def createDetailedSummary (messages : List Message) : String :=
  let summaryParts := messages.enum.filterMap (fun p =>
    let message := p.2
    if message.role == "user" then
      some ("User (Message " ++ toString (p.1 + 1) ++ "): " ++ message.content)
    else if message.role == "assistant" then
      some ("Assistant (Response " ++ toString (p.1 + 1) ++ "): " ++ message.content)
    else if message.role == "system" then
      some ("System Configuration: " ++ message.content)
    else none)
  jsJoin "\n\n" summaryParts

/-- The parts list pushed by `createStructuredSummary`
(models.ts:601-618): the optional `"System Context:"` block (header,
one bullet per system message, blank line), then `"Conversation Flow:"`
and the interleaved flow lines. -/
def structuredSummaryParts (systemMessages flowParts : List String) : List String :=
  (if systemMessages.isEmpty then []
   else "System Context:" :: (systemMessages.map (fun msg => "- " ++ msg)) ++ [""]) ++
  "Conversation Flow:" :: flowParts

/-- `ContextTransferManager.createStructuredSummary` (models.ts:582-623). -/
def createStructuredSummary (messages : List Message) : String :=
  let userMessages := (messages.filter (fun m => m.role == "user")).map Message.content
  let assistantMessages :=
    (messages.filter (fun m => m.role == "assistant")).map Message.content
  let systemMessages := (messages.filter (fun m => m.role == "system")).map Message.content
  let flowParts := (List.range (max userMessages.length assistantMessages.length)).flatMap
    (fun i =>
      ((userMessages.get? i).map (fun c => "User: " ++ c)).toList ++
      ((assistantMessages.get? i).map (fun c => "Assistant: " ++ c)).toList ++ [""])
  jsTrim (jsJoin "\n" (structuredSummaryParts systemMessages flowParts))

/-- `ContextTransferManager.summarizeContext` (models.ts:516-530). -/
def summarizeContext (messages : List Message) (summaryType : String) : String :=
  if messages.isEmpty then "No conversation context available."
  else if summaryType == "structured" then createStructuredSummary messages
  else if summaryType == "detailed" then createDetailedSummary messages
  else createConciseSummary messages

/-- Accumulator state of the line loop in `loadTextConversation`
(models.ts:678-702): the current role, the accumulated content lines,
and the finished messages. -/
structure ParseState where
  currentRole : Option String
  currentContent : List String
  messages : List Message
deriving DecidableEq, Repr

/-- The flush performed before starting a new message and at end of
input (`if (currentRole && currentContent.length)`,
models.ts:683-688 and 704-709). -/
def flushMessage (st : ParseState) : List Message :=
  match st.currentRole with
  | some r =>
      if st.currentContent.isEmpty then st.messages
      else st.messages ++ [⟨r, jsTrim (jsJoin "\n" st.currentContent)⟩]
  | none => st.messages

/-- The prefix test of models.ts:682. -/
def textPrefixLine (line : String) : Bool :=
  jsStartsWith line "User:" || jsStartsWith line "Assistant:" || jsStartsWith line "System:"

/-- The role assignment of models.ts:690-696 (only reached when
`textPrefixLine` holds, so the final branch is the `System:` case). -/
def lineRole (line : String) : String :=
  if jsStartsWith line "User:" then "user"
  else if jsStartsWith line "Assistant:" then "assistant"
  else "system"

/-- `line.split(':', 1)[1]?.trim() || ''` (models.ts:698): the text
stored as the first content line of a new message. -/
def inlineField (line : String) : String :=
  (((jsSplit line ':' 1).get? 1).map jsTrim).getD ""

/-- One iteration of the line loop of `loadTextConversation`
(models.ts:681-702). -/
def parseTextStep (st : ParseState) (line : String) : ParseState :=
  if textPrefixLine line then
    { currentRole := some (lineRole line),
      currentContent := [inlineField line],
      messages := flushMessage st }
  else
    { st with currentContent := st.currentContent ++ [line] }

/-- The pure core of `ContextTransferManager.loadTextConversation`
(models.ts:673-713), applied to the file's contents. -/
def parseTextConversation (content : String) : List Message :=
  let lines := jsSplitAll (jsTrim content) '\n'
  flushMessage (lines.foldl parseTextStep ⟨none, [], []⟩)

/-- `ModelCapabilities` from `models.ts`. -/
structure ModelCapabilities where
  name : String
  supportedFormats : List String
  maxContextLength : Nat
  supportsCode : Bool
  supportsImages : Bool
  supportsTools : Bool
deriving DecidableEq, Repr

/-- The fallback capability record of `getModelInfo` (models.ts:888-895). -/
def defaultCapabilities (modelName : String) : ModelCapabilities :=
  { name := modelName, supportedFormats := ["text"], maxContextLength := 8000,
    supportsCode := true, supportsImages := false, supportsTools := false }

/-- `ContextTransferManager.getModelInfo` (models.ts:883-897).  The
external `AdapterFactory.get_model_capabilities` call is a parameter;
`none` models any lookup failure, answered by the fallback record. -/
def getModelInfo (caps : String → Option ModelCapabilities) (modelName : String) :
    ModelCapabilities :=
  (caps modelName).getD (defaultCapabilities modelName)

/-- A JavaScript value as stored in an options object. -/
inductive JsValue where
  | bool (b : Bool)
  | num (n : Nat)
  | str (s : String)
deriving DecidableEq, Repr

/-- JavaScript truthiness of a `JsValue`. -/
def jsTruthy : JsValue → Bool
  | .bool b => b
  | .num n => n != 0
  | .str s => !s.isEmpty

/-- Property access `o[k]` on an options object (association list). -/
def jsGet (o : List (String × JsValue)) (k : String) : Option JsValue :=
  (o.find? (fun p => p.1 == k)).map Prod.snd

/-- `ContextTransferConfig` with the constructor defaults of
models.ts:454-462. -/
structure ContextTransferConfig where
  maxContextLength : Nat
  defaultSummaryLength : Nat
  includeMetadata : Bool
  preserveFormatting : Bool
  smartTruncation : Bool
  contextCompression : Bool
deriving DecidableEq, Repr

/-- The manager configuration used by `ContextTransferAPI` (its manager
is constructed without arguments, models.ts:915). -/
def defaultManagerConfig : ContextTransferConfig :=
  ⟨32000, 1000, true, true, true, false⟩

/-- An externally registered per-model adapter (§6 of the spec): its
`formatContext(summary, sourceModel, options)` method. -/
structure JsAdapter where
  formatContext : String → String → List (String × JsValue) → String

/-- `targetModel.toLowerCase().replace(/[ -]/g, "_")` (models.ts:843). -/
def normalizeModelName (s : String) : String :=
  ⟨(jsToLower s).data.map (fun c => if c == ' ' || c == '-' then '_' else c)⟩

/-- `ContextTransferManager.formatGeneric` (models.ts:861-877). -/
def formatGeneric (config : ContextTransferConfig)
    (summary sourceModel targetModel : String)
    (options : List (String × JsValue)) : String :=
  let includeMetadata :=
    match jsGet options "include_metadata" with
    | some v => jsTruthy v
    | none => config.includeMetadata
  let prompt :=
    "You are " ++ targetModel ++ ", an AI assistant.\n\n" ++
    "A user was previously working with " ++ sourceModel ++
    " on the following conversation:\n\n" ++ summary ++
    "\n\nPlease continue helping the user from where they left off. " ++
    "Maintain the context and provide helpful responses."
  if includeMetadata then
    prompt ++ "\n\n---\nContext transferred from " ++ sourceModel ++ " to " ++
      targetModel ++ " using MultiMind SDK"
  else prompt

/-- `ContextTransferManager.formatForTargetModel` (models.ts:837-851).
The external adapter registry is the `adapters` parameter; a `none`
result models the `getAdapter` failure caught at models.ts:848. -/
def formatForTargetModel (adapters : String → Option JsAdapter)
    (config : ContextTransferConfig) (targetModel summary sourceModel : String)
    (options : List (String × JsValue)) : String :=
  match adapters (normalizeModelName targetModel) with
  | some adapter => adapter.formatContext summary sourceModel options
  | none => formatGeneric config summary sourceModel targetModel options

/-- Caller-supplied `TransferOptions` (models.ts:360-375); every field
is optional. -/
structure TransferOptions where
  lastN : Option Nat
  includeSummary : Option Bool
  summaryType : Option String
  smartExtraction : Option Bool
  outputFormat : Option String
  includeMetadata : Option Bool
  includeCodeContext : Option Bool
  includeReasoning : Option Bool
  includeSafety : Option Bool
  includeCreativity : Option Bool
  includeExamples : Option Bool
  includeStepByStep : Option Bool
  includeMultimodal : Option Bool
  includeWebSearch : Option Bool
deriving DecidableEq, Repr

/-- The empty options object `{}`. -/
def emptyTransferOptions : TransferOptions :=
  ⟨none, none, none, none, none, none, none, none, none, none, none, none, none, none⟩

/-- The merged `finalOptions` object: every key present, caller values
over the defaults of models.ts:927-942. -/
structure FinalTransferOptions where
  lastN : Nat
  includeSummary : Bool
  summaryType : String
  smartExtraction : Bool
  outputFormat : String
  includeMetadata : Bool
  includeCodeContext : Bool
  includeReasoning : Bool
  includeSafety : Bool
  includeCreativity : Bool
  includeExamples : Bool
  includeStepByStep : Bool
  includeMultimodal : Bool
  includeWebSearch : Bool
deriving DecidableEq, Repr

/-- `{ ...defaultOptions, ...options }` (models.ts:944). -/
def mergeOptions (o : TransferOptions) : FinalTransferOptions :=
  { lastN := o.lastN.getD 5,
    includeSummary := o.includeSummary.getD true,
    summaryType := o.summaryType.getD "concise",
    smartExtraction := o.smartExtraction.getD true,
    outputFormat := o.outputFormat.getD "txt",
    includeMetadata := o.includeMetadata.getD true,
    includeCodeContext := o.includeCodeContext.getD false,
    includeReasoning := o.includeReasoning.getD false,
    includeSafety := o.includeSafety.getD false,
    includeCreativity := o.includeCreativity.getD false,
    includeExamples := o.includeExamples.getD false,
    includeStepByStep := o.includeStepByStep.getD false,
    includeMultimodal := o.includeMultimodal.getD false,
    includeWebSearch := o.includeWebSearch.getD false }

/-- `Object.entries(finalOptions)`, in the key order of the merged
object (the spread keeps the default declaration order of
models.ts:927-942; overriding a value does not move its key). -/
def optionEntries (fo : FinalTransferOptions) : List (String × JsValue) :=
  [("lastN", .num fo.lastN),
   ("includeSummary", .bool fo.includeSummary),
   ("summaryType", .str fo.summaryType),
   ("smartExtraction", .bool fo.smartExtraction),
   ("outputFormat", .str fo.outputFormat),
   ("includeMetadata", .bool fo.includeMetadata),
   ("includeCodeContext", .bool fo.includeCodeContext),
   ("includeReasoning", .bool fo.includeReasoning),
   ("includeSafety", .bool fo.includeSafety),
   ("includeCreativity", .bool fo.includeCreativity),
   ("includeExamples", .bool fo.includeExamples),
   ("includeStepByStep", .bool fo.includeStepByStep),
   ("includeMultimodal", .bool fo.includeMultimodal),
   ("includeWebSearch", .bool fo.includeWebSearch)]

/-- The `formattingOptions` filter of models.ts:959-961:
`Object.entries(finalOptions).filter(([key]) =>
key.startsWith('include_') && key !== 'includeMetadata')`. -/
def formattingOptionsOf (fo : FinalTransferOptions) : List (String × JsValue) :=
  (optionEntries fo).filter
    (fun p => jsStartsWith p.1 "include_" && p.1 != "includeMetadata")

/-- The `conversationData` argument of `transferContextAPI`
(models.ts:923): a string (file path), a message array, or an object
(whose `messages`/`conversation` keys may be absent; an object with
neither key is cast to a single message). -/
inductive ConversationData where
  | str (s : String)
  | arr (messages : List Message)
  | obj (messages : Option (List Message)) (conversation : Option (List Message))
      (fallback : Message)
deriving DecidableEq, Repr

/-- `ContextTransferAPI.processConversationData` (models.ts:1002-1019);
the string case throws. -/
def processConversationData : ConversationData → Except String (List Message)
  | .str _ => .error "File path processing not implemented in this demo"
  | .arr l => .ok l
  | .obj (some l) _ _ => .ok l
  | .obj none (some l) _ => .ok l
  | .obj none none m => .ok [m]

/-- The `metadata` object of a `TransferResult` (models.ts:389-403);
keys may be absent, and `{...undefined, transferIndex: i}` in
`batchTransfer` produces an object with only `transferIndex`. -/
structure TransferMetadata where
  sourceModel : Option String
  targetModel : Option String
  summaryType : Option String
  smartExtraction : Option Bool
  messagesProcessed : Option Nat
  messagesExtracted : Option Nat
  promptLength : Option Nat
  createdAt : Option String
  outputFormat : Option String
  modelCapabilities : Option (ModelCapabilities × ModelCapabilities)
  transferIndex : Option Nat
deriving DecidableEq, Repr

/-- A metadata object with no keys. -/
def emptyMetadata : TransferMetadata :=
  ⟨none, none, none, none, none, none, none, none, none, none, none⟩

/-- `TransferResult` (models.ts:386-406). -/
structure TransferResult where
  success : Bool
  formattedPrompt : Option String
  metadata : Option TransferMetadata
  error : Option String
  errorType : Option String
deriving DecidableEq, Repr

/-- The summary computation of `transferContextAPI` (models.ts:952-957):
the configured summariser, or a concise summary of only the last
extracted message when `includeSummary` is off. -/
def apiSummary (extractedMessages : List Message) (fo : FinalTransferOptions) : String :=
  if fo.includeSummary then summarizeContext extractedMessages fo.summaryType
  else summarizeContext (jsSliceFrom extractedMessages (-1)) "concise"

/-- `ContextTransferAPI.transferContextAPI` (models.ts:920-1000).  The
external adapter registry and capability service are parameters, and
`now` stands for the wall-clock ISO timestamp.  The only statement of
the guarded pipeline that can throw is `processConversationData`; its
error is converted to the `success:false` result shape by the `catch`
of models.ts:992-999. -/
def transferContextAPI (adapters : String → Option JsAdapter)
    (caps : String → Option ModelCapabilities) (now : String)
    (sourceModel targetModel : String) (conversationData : ConversationData)
    (options : TransferOptions) : TransferResult :=
  match processConversationData conversationData with
  | .error e =>
      { success := false, formattedPrompt := none, metadata := none,
        error := some e, errorType := some "Error" }
  | .ok messages =>
      let finalOptions := mergeOptions options
      let extractedMessages :=
        extractContext messages finalOptions.lastN finalOptions.smartExtraction
      let summary := apiSummary extractedMessages finalOptions
      let formattedPrompt :=
        formatForTargetModel adapters defaultManagerConfig targetModel summary
          sourceModel (formattingOptionsOf finalOptions)
      { success := true,
        formattedPrompt := some formattedPrompt,
        metadata := some
          { sourceModel := some sourceModel,
            targetModel := some targetModel,
            summaryType := some finalOptions.summaryType,
            smartExtraction := some finalOptions.smartExtraction,
            messagesProcessed := some messages.length,
            messagesExtracted := some extractedMessages.length,
            promptLength := some formattedPrompt.length,
            createdAt := some now,
            outputFormat := some finalOptions.outputFormat,
            modelCapabilities :=
              if finalOptions.includeMetadata then
                some (getModelInfo caps sourceModel, getModelInfo caps targetModel)
              else none,
            transferIndex := none },
        error := none, errorType := none }

/-- The `analysis` record of `validateConversationFormat`
(models.ts:1070-1105). -/
structure ConversationAnalysis where
  totalMessages : Nat
  userMessages : Nat
  assistantMessages : Nat
  systemMessages : Nat
  unknownMessages : Nat
  averageMessageLength : ℚ
  hasSystemContext : Bool
deriving DecidableEq, Repr

/-- The counting loop of `validateConversationFormat`
(models.ts:1080-1105). -/
def analyzeMessages (messages : List Message) : ConversationAnalysis :=
  let systemCount := (messages.filter (fun m => m.role == "system")).length
  { totalMessages := messages.length,
    userMessages := (messages.filter (fun m => m.role == "user")).length,
    assistantMessages := (messages.filter (fun m => m.role == "assistant")).length,
    systemMessages := systemCount,
    unknownMessages := (messages.filter (fun m =>
      m.role != "user" && m.role != "assistant" && m.role != "system")).length,
    averageMessageLength :=
      if messages.length > 0 then
        ((messages.map (fun m => m.content.length)).sum : ℚ) / (messages.length : ℚ)
      else 0,
    hasSystemContext := systemCount != 0 }

/-- `ContextTransferAPI.generateRecommendations` (models.ts:1123-1155). -/
def generateRecommendations (analysis : ConversationAnalysis) : List String :=
  (if analysis.totalMessages == 0 then
    ["No messages found in conversation data"] else []) ++
  (if analysis.userMessages == 0 then
    ["No user messages found - ensure conversation has user input"] else []) ++
  (if analysis.assistantMessages == 0 then
    ["No assistant messages found - ensure conversation has AI responses"] else []) ++
  (if analysis.unknownMessages > 0 then
    ["Found " ++ toString analysis.unknownMessages ++ " messages with unknown roles"]
   else []) ++
  (if analysis.averageMessageLength > 1000 then
    ["Long messages detected - consider using smart extraction"] else []) ++
  (if analysis.totalMessages > 20 then
    ["Large conversation detected - consider using smart extraction and detailed summary"]
   else []) ++
  (if !analysis.hasSystemContext then
    ["No system context found - consider adding system messages for better context"]
   else [])

/-- `ValidationResult` (models.ts:413-428). -/
structure ValidationResult where
  success : Bool
  valid : Bool
  analysis : Option ConversationAnalysis
  recommendations : Option (List String)
  error : Option String
  errorType : Option String
deriving DecidableEq, Repr

/-- `ContextTransferAPI.validateConversationFormat` (models.ts:1066-1121). -/
def validateConversationFormat (data : ConversationData) : ValidationResult :=
  match processConversationData data with
  | .ok messages =>
      let analysis := analyzeMessages messages
      { success := true, valid := true, analysis := some analysis,
        recommendations := some (generateRecommendations analysis),
        error := none, errorType := none }
  | .error e =>
      { success := false, valid := false, analysis := none, recommendations := none,
        error := some e, errorType := some "Error" }

/-- One element of the `batchTransfer` request list (models.ts:1157-1162);
an absent `options` key reaches `transferContextAPI` as the default `{}`. -/
structure BatchRequest where
  sourceModel : String
  targetModel : String
  conversationData : ConversationData
  options : TransferOptions
deriving DecidableEq, Repr

/-- `result.metadata = { ...result.metadata, transferIndex: i }`
(models.ts:1177); spreading an absent metadata object yields an object
holding only `transferIndex`. -/
def setTransferIndex (m : Option TransferMetadata) (i : Nat) : TransferMetadata :=
  match m with
  | some md => { md with transferIndex := some i }
  | none => { emptyMetadata with transferIndex := some i }

/-- The `batchTransfer` return object (models.ts:1196-1205). -/
structure BatchResult where
  success : Bool
  totalTransfers : Nat
  successfulTransfers : Nat
  failedTransfers : Nat
  results : List TransferResult
  completedAt : String
deriving DecidableEq, Repr

/-- `ContextTransferAPI.batchTransfer` (models.ts:1157-1206): each
request processed sequentially through `transferContextAPI` (which never
throws, so the `catch` arm of models.ts:1185-1193 is unreachable), the
result tagged with its index, successes and failures counted. -/
def batchTransfer (adapters : String → Option JsAdapter)
    (caps : String → Option ModelCapabilities) (now : String)
    (transfers : List BatchRequest) : BatchResult :=
  let results := transfers.enum.map (fun p =>
    let r := transferContextAPI adapters caps now p.2.sourceModel p.2.targetModel
      p.2.conversationData p.2.options
    { r with metadata := some (setTransferIndex r.metadata p.1) })
  let failed := (results.filter (fun r => !r.success)).length
  { success := failed == 0,
    totalTransfers := transfers.length,
    successfulTransfers := (results.filter (fun r => r.success)).length,
    failedTransfers := failed,
    results := results,
    completedAt := now }

/-! ## Properties of the JavaScript slice model -/

theorem jsSliceFrom_neg (l : List α) (k : Nat) (hk : 1 ≤ k) :
    jsSliceFrom l (-(k : Int)) = l.drop (l.length - k) := by
  unfold jsSliceFrom jsStartIdx
  rw [if_pos (by omega)]
  congr 1
  omega

theorem jsSliceTo_neg (l : List α) (k : Nat) (hk : 1 ≤ k) :
    jsSliceTo l (-(k : Int)) = l.take (l.length - k) := by
  unfold jsSliceTo jsStartIdx
  rw [if_pos (by omega)]
  congr 1
  omega

theorem jsSliceTo_append_jsSliceFrom (l : List α) (i : Int) :
    jsSliceTo l i ++ jsSliceFrom l i = l :=
  List.take_append_drop _ l

theorem jsSliceFrom_sublist (l : List α) (i : Int) : (jsSliceFrom l i).Sublist l :=
  List.drop_sublist _ l

/-! ## Claim theorems -/

theorem smartExtractContext_sublist (messages : List Message) (lastN : Nat) :
    (smartExtractContext messages lastN).Sublist messages := by
  by_cases h1 : messages.length ≤ lastN
  · simp [smartExtractContext, h1]
  · by_cases h2 : (importantBefore messages lastN).isEmpty
    · simp only [smartExtractContext, h1, if_false, h2, if_true]
      exact jsSliceFrom_sublist _ _
    · simp only [smartExtractContext, h1, if_false, h2, if_false, Bool.false_eq_true]
      have ha : (jsSliceFrom (importantBefore messages lastN) (-2)).Sublist
          (jsSliceTo messages (-(lastN : Int))) :=
        (jsSliceFrom_sublist _ _).trans (List.filter_sublist _)
      have hb : (jsSliceFrom (recentOf messages lastN)
          (-((lastN : Int) - ((jsSliceFrom (importantBefore messages lastN) (-2)).length : Int)))).Sublist
          (jsSliceFrom messages (-(lastN : Int))) :=
        jsSliceFrom_sublist _ _
      have hc := ha.append hb
      rwa [jsSliceTo_append_jsSliceFrom] at hc

/-- C6: for every message list, every `lastN` and both extraction modes,
the output of `extractContext` is an order-preserving subsequence of the
input (`List.Sublist`, hence without duplicated occurrences) whose
length is at most the input length. -/
theorem extractContext_subsequence (messages : List Message) (lastN : Nat)
    (smart : Bool) :
    (extractContext messages lastN smart).Sublist messages ∧
    (extractContext messages lastN smart).length ≤ messages.length := by
  have hs : (extractContext messages lastN smart).Sublist messages := by
    unfold extractContext
    by_cases h0 : messages.isEmpty
    · simp [h0]
    · by_cases h1 : smart
      · simp only [h0, if_false, h1, if_true]
        exact smartExtractContext_sublist _ _
      · simp only [h0, if_false, h1]
        exact jsSliceFrom_sublist _ _
  exact ⟨hs, hs.length_le⟩

/-- C7 (amended): for every message list and every `lastN ≥ 1`,
non-smart extraction returns exactly the last `min lastN n` messages.
(The amendment excludes `lastN = 0`, where `slice(-0)` returns the whole
array — see the counterexample.) -/
theorem extractContext_nonsmart_last_min (messages : List Message) (lastN : Nat)
    (h : 1 ≤ lastN) :
    extractContext messages lastN false =
      messages.drop (messages.length - min lastN messages.length) := by
  unfold extractContext
  by_cases h0 : messages.isEmpty
  · rw [List.isEmpty_iff.mp h0]
    simp
  · have hlen : 1 ≤ messages.length := by
      cases messages with
      | nil => simp at h0
      | cons a t => simp
    simp only [h0, if_false, Bool.false_eq_true]
    exact jsSliceFrom_neg messages (min lastN messages.length) (by omega)

/-- Witness for C7's theorem at a concrete input. -/
theorem extractContext_nonsmart_last_min_witness :
    extractContext [⟨"user", "a"⟩, ⟨"user", "b"⟩, ⟨"user", "c"⟩] 2 false =
      List.drop
        (([⟨"user", "a"⟩, ⟨"user", "b"⟩, ⟨"user", "c"⟩] : List Message).length -
          min 2 ([⟨"user", "a"⟩, ⟨"user", "b"⟩, ⟨"user", "c"⟩] : List Message).length)
        [⟨"user", "a"⟩, ⟨"user", "b"⟩, ⟨"user", "c"⟩] :=
  extractContext_nonsmart_last_min [⟨"user", "a"⟩, ⟨"user", "b"⟩, ⟨"user", "c"⟩] 2
    (by decide)

/-- C7 counterexample: with `lastN = 0` and a nonempty input, the code
returns the whole list (JavaScript `slice(-0)` is `slice(0)`), not the
last `min(0, n) = 0` messages claimed. -/
theorem extractContext_nonsmart_lastN_zero_cex :
    extractContext [⟨"user", "a"⟩] 0 false = [⟨"user", "a"⟩] ∧
    extractContext [⟨"user", "a"⟩] 0 false ≠
      List.drop (([⟨"user", "a"⟩] : List Message).length -
        min 0 ([⟨"user", "a"⟩] : List Message).length) [⟨"user", "a"⟩] := by
  decide

/-- C2 (amended): with smart extraction on, `messages.length > lastN`,
at least one important earlier message, and — the amendment —
`min 2 importantCount < lastN`, the result is the last
`min 2 importantCount` important messages followed by the tail of the
recent set, exactly `lastN` messages in total.  (When
`min 2 importantCount ≥ lastN`, `recent.slice(-(lastN - taken))` is
`slice(-0)` or a positive-index slice and the total exceeds `lastN` —
see the counterexample.) -/
theorem smart_extract_important_then_recent (messages : List Message) (lastN : Nat)
    (hlen : lastN < messages.length)
    (himp : importantBefore messages lastN ≠ [])
    (hroom : min 2 (importantBefore messages lastN).length < lastN) :
    extractContext messages lastN true =
      (importantBefore messages lastN).drop
          ((importantBefore messages lastN).length - 2) ++
        (recentOf messages lastN).drop (min 2 (importantBefore messages lastN).length) ∧
    (extractContext messages lastN true).length = lastN := by
  have hne : messages ≠ [] := by
    intro h
    rw [h] at hlen
    simp at hlen
  have himpLen : 1 ≤ (importantBefore messages lastN).length := List.length_pos.mpr himp
  have hlast1 : 1 ≤ lastN := by omega
  have hrecent : recentOf messages lastN = messages.drop (messages.length - lastN) := by
    unfold recentOf
    exact jsSliceFrom_neg messages lastN hlast1
  have hrecLen : (recentOf messages lastN).length = lastN := by
    rw [hrecent, List.length_drop]
    omega
  have c2 : ¬ ((importantBefore messages lastN).isEmpty = true) := by
    intro hc
    exact himp (List.isEmpty_iff.mp hc)
  have h0 : ¬ (messages.isEmpty = true) := by
    simpa [List.isEmpty_iff] using hne
  have hmain : extractContext messages lastN true =
      jsSliceFrom (importantBefore messages lastN) (-2) ++
        jsSliceFrom (recentOf messages lastN)
          (-((lastN : Int) -
            ((jsSliceFrom (importantBefore messages lastN) (-2)).length : Int))) := by
    unfold extractContext smartExtractContext
    simp only [h0, if_false, if_true, c2, Bool.false_eq_true,
      if_neg (by omega : ¬ messages.length ≤ lastN)]
  have hctx : jsSliceFrom (importantBefore messages lastN) (-2) =
      (importantBefore messages lastN).drop ((importantBefore messages lastN).length - 2) :=
    jsSliceFrom_neg _ 2 (by omega)
  have hctxLen : (jsSliceFrom (importantBefore messages lastN) (-2)).length =
      min 2 (importantBefore messages lastN).length := by
    rw [hctx, List.length_drop]
    omega
  have htail : jsSliceFrom (recentOf messages lastN)
      (-((lastN : Int) -
        ((jsSliceFrom (importantBefore messages lastN) (-2)).length : Int))) =
      (recentOf messages lastN).drop (min 2 (importantBefore messages lastN).length) := by
    rw [hctxLen]
    rw [show ((lastN : Int) - ((min 2 (importantBefore messages lastN).length : Nat) : Int)) =
      (((lastN - min 2 (importantBefore messages lastN).length) : Nat) : Int) by omega]
    rw [jsSliceFrom_neg _ _ (by omega)]
    rw [hrecLen]
    congr 1
    omega
  constructor
  · rw [hmain, htail, hctx]
  · rw [hmain, htail, hctx, List.length_append, List.length_drop, List.length_drop, hrecLen]
    omega

/-- Witness for C2's theorem at a concrete input (one important earlier
message, `lastN = 3`). -/
theorem smart_extract_important_then_recent_witness :
    extractContext
        [⟨"system", "s1"⟩, ⟨"user", "x"⟩, ⟨"user", "a"⟩, ⟨"user", "b"⟩, ⟨"user", "c"⟩]
        3 true =
      (importantBefore
          [⟨"system", "s1"⟩, ⟨"user", "x"⟩, ⟨"user", "a"⟩, ⟨"user", "b"⟩, ⟨"user", "c"⟩]
          3).drop
        ((importantBefore
            [⟨"system", "s1"⟩, ⟨"user", "x"⟩, ⟨"user", "a"⟩, ⟨"user", "b"⟩, ⟨"user", "c"⟩]
            3).length - 2) ++
        (recentOf
            [⟨"system", "s1"⟩, ⟨"user", "x"⟩, ⟨"user", "a"⟩, ⟨"user", "b"⟩, ⟨"user", "c"⟩]
            3).drop
          (min 2
            (importantBefore
              [⟨"system", "s1"⟩, ⟨"user", "x"⟩, ⟨"user", "a"⟩, ⟨"user", "b"⟩, ⟨"user", "c"⟩]
              3).length) ∧
    (extractContext
        [⟨"system", "s1"⟩, ⟨"user", "x"⟩, ⟨"user", "a"⟩, ⟨"user", "b"⟩, ⟨"user", "c"⟩]
        3 true).length = 3 :=
  smart_extract_important_then_recent
    [⟨"system", "s1"⟩, ⟨"user", "x"⟩, ⟨"user", "a"⟩, ⟨"user", "b"⟩, ⟨"user", "c"⟩] 3
    (by decide) (by decide) (by decide)

/-- C2 counterexample: a 4-message list with two important earlier
messages and `lastN = 2` satisfies every hypothesis of the claim, yet
the extraction returns 4 messages, not `lastN = 2`:
`contextToInclude.length = 2` makes `recent.slice(-(lastN - 2))` into
`slice(-0)`, which returns the whole recent set. -/
theorem smart_extract_exact_lastN_cex :
    2 < ([⟨"system", "s1"⟩, ⟨"system", "s2"⟩, ⟨"user", "a"⟩, ⟨"user", "b"⟩] :
      List Message).length ∧
    importantBefore
      [⟨"system", "s1"⟩, ⟨"system", "s2"⟩, ⟨"user", "a"⟩, ⟨"user", "b"⟩] 2 ≠ [] ∧
    (extractContext
      [⟨"system", "s1"⟩, ⟨"system", "s2"⟩, ⟨"user", "a"⟩, ⟨"user", "b"⟩] 2 true).length
      = 4 := by
  decide

/-! ## Lemmas on the join/trim model, used for the structured summary -/

theorem jsJoin_cons_of_ne (sep a : String) (rest : List String) (h : rest ≠ []) :
    jsJoin sep (a :: rest) = a ++ sep ++ jsJoin sep rest := by
  cases rest with
  | nil => exact absurd rfl h
  | cons b t => rfl

theorem jsJoin_cons_data (sep a : String) (t : List String) :
    ∃ z, (jsJoin sep (a :: t)).data = a.data ++ z := by
  cases t with
  | nil => exact ⟨[], by simp [jsJoin]⟩
  | cons b u => exact ⟨sep.data ++ (jsJoin sep (b :: u)).data, by simp [jsJoin]⟩

theorem isPrefixOf_self_append (u v : List Char) : u.isPrefixOf (u ++ v) = true := by
  induction u with
  | nil => simp [List.isPrefixOf]
  | cons a t ih => simp [List.isPrefixOf, ih]

theorem dropWhile_ne_nil_of_any (p : Char → Bool) (l : List Char)
    (h : l.any (fun c => !p c) = true) : l.dropWhile p ≠ [] := by
  intro hnil
  rw [List.dropWhile_eq_nil_iff] at hnil
  obtain ⟨x, hx, hpx⟩ := List.any_eq_true.mp h
  rw [hnil x hx] at hpx
  simp at hpx

theorem jsTrimList_append_right (c : Char) (t b : List Char) (hc : isJsWs c = false)
    (hb : b.any (fun x => !isJsWs x) = true) :
    jsTrimList ((c :: t) ++ b) = (c :: t) ++ (b.reverse.dropWhile isJsWs).reverse := by
  unfold jsTrimList
  have h1 : ((c :: t) ++ b).dropWhile isJsWs = (c :: t) ++ b := by
    rw [List.cons_append, List.dropWhile_cons, hc]
    simp
  rw [h1, List.reverse_append, List.dropWhile_append]
  have hne : b.reverse.dropWhile isJsWs ≠ [] :=
    dropWhile_ne_nil_of_any isJsWs b.reverse (by rwa [List.any_reverse])
  rw [if_neg (by simpa [List.isEmpty_iff] using hne)]
  rw [List.reverse_append, List.reverse_reverse]

theorem jsTrimList_cons_nonws (c : Char) (t : List Char) (hc : isJsWs c = false) :
    ∃ r, jsTrimList (c :: t) = c :: r := by
  unfold jsTrimList
  have h1 : (c :: t).dropWhile isJsWs = c :: t := by
    rw [List.dropWhile_cons, hc]
    simp
  rw [h1]
  have hsuf : ((c :: t).reverse.dropWhile isJsWs).IsSuffix (c :: t).reverse :=
    List.dropWhile_suffix isJsWs
  have hpre : (((c :: t).reverse.dropWhile isJsWs).reverse).IsPrefix (c :: t) := by
    have := List.reverse_prefix.mpr hsuf
    rwa [List.reverse_reverse] at this
  have hne : (c :: t).reverse.dropWhile isJsWs ≠ [] := by
    apply dropWhile_ne_nil_of_any
    rw [List.any_reverse]
    exact List.any_eq_true.mpr ⟨c, List.mem_cons_self c t, by simp [hc]⟩
  obtain ⟨u, hu⟩ := hpre
  rcases hrev : ((c :: t).reverse.dropWhile isJsWs).reverse with _ | ⟨x, r⟩
  · exact absurd (by simpa using hrev) hne
  · rw [hrev] at hu
    rw [List.cons_append] at hu
    have hx : x = c := by
      injection hu
    exact ⟨r, by rw [hx]⟩

theorem any_join_of_mem (sep m : String) (parts : List String) (hm : m ∈ parts)
    (h : m.data.any (fun c => !isJsWs c) = true) :
    (jsJoin sep parts).data.any (fun c => !isJsWs c) = true := by
  induction parts with
  | nil => cases hm
  | cons a t ih =>
    cases t with
    | nil =>
      rw [List.mem_singleton] at hm
      rw [jsJoin]
      exact hm ▸ h
    | cons b u =>
      rw [jsJoin_cons_of_ne sep a (b :: u) (by simp)]
      rcases List.mem_cons.mp hm with hma | hmt
      · show ((a ++ sep ++ jsJoin sep (b :: u)).data).any _ = true
        rw [show (a ++ sep ++ jsJoin sep (b :: u)).data =
          a.data ++ (sep.data ++ (jsJoin sep (b :: u)).data) by simp]
        rw [List.any_append]
        rw [hma] at h
        rw [h]
        rfl
      · show ((a ++ sep ++ jsJoin sep (b :: u)).data).any _ = true
        rw [show (a ++ sep ++ jsJoin sep (b :: u)).data =
          (a.data ++ sep.data) ++ (jsJoin sep (b :: u)).data by simp]
        rw [List.any_append, ih hmt]
        simp

/-- For any system-message list and flow lines, the trimmed joined
structured summary starts with `"System Context:"` exactly when the
system-message list is nonempty. -/
theorem startsWith_structuredSummaryParts (sysList flow : List String) :
    jsStartsWith (jsTrim (jsJoin "\n" (structuredSummaryParts sysList flow)))
      "System Context:" = !sysList.isEmpty := by
  by_cases h : sysList.isEmpty = true
  · rw [structuredSummaryParts, if_pos h, List.nil_append]
    obtain ⟨z, hz⟩ := jsJoin_cons_data "\n" "Conversation Flow:" flow
    rw [jsStartsWith, jsTrim]
    show ("System Context:".data).isPrefixOf (jsTrimList _) = _
    rw [hz]
    rw [show "Conversation Flow:".data ++ z = 'C' :: ("onversation Flow:".data ++ z)
      from rfl]
    obtain ⟨r, hr⟩ := jsTrimList_cons_nonws 'C' ("onversation Flow:".data ++ z) (by decide)
    rw [hr, h]
    rw [show "System Context:".data = 'S' :: "ystem Context:".data from rfl]
    simp [List.isPrefixOf]
  · rw [structuredSummaryParts, if_neg h, List.cons_append, List.cons_append]
    set tail := (sysList.map (fun msg => "- " ++ msg) ++ [""]) ++
      "Conversation Flow:" :: flow with htail
    have htailne : tail ≠ [] := by
      rw [htail]
      simp
    have hcf : "Conversation Flow:" ∈ tail := by
      rw [htail]
      simp
    rw [jsJoin_cons_of_ne "\n" "System Context:" tail htailne]
    rw [jsStartsWith, jsTrim]
    show ("System Context:".data).isPrefixOf (jsTrimList
      ("System Context:" ++ "\n" ++ jsJoin "\n" tail).data) = _
    rw [show ("System Context:" ++ "\n" ++ jsJoin "\n" tail).data =
      'S' :: ("ystem Context:".data ++ ('\n' :: (jsJoin "\n" tail).data)) by simp]
    have hb : ('\n' :: (jsJoin "\n" tail).data).any (fun x => !isJsWs x) = true := by
      have hj := any_join_of_mem "\n" "Conversation Flow:" tail hcf (by decide)
      simp [List.any_cons, hj]
    have ht := jsTrimList_append_right 'S'
      ("ystem Context:".data) ('\n' :: (jsJoin "\n" tail).data) (by decide) hb
    rw [show ('S' :: "ystem Context:".data) ++ ('\n' :: (jsJoin "\n" tail).data) =
      'S' :: ("ystem Context:".data ++ ('\n' :: (jsJoin "\n" tail).data)) from rfl] at ht
    rw [ht]
    rw [show ('S' :: "ystem Context:".data) = "System Context:".data from rfl]
    rw [show "System Context:".data ++
        (('\n' :: (jsJoin "\n" tail).data).reverse.dropWhile isJsWs).reverse =
      "System Context:".data ++
        (('\n' :: (jsJoin "\n" tail).data).reverse.dropWhile isJsWs).reverse from rfl]
    rw [isPrefixOf_self_append]
    rcases hv : sysList.isEmpty with _ | _
    · rfl
    · exact absurd hv h

/-- C9: the structured summary starts with the `"System Context:"`
block exactly when the message list contains a system message. -/
theorem structured_summary_system_block (messages : List Message) :
    jsStartsWith (createStructuredSummary messages) "System Context:" =
      messages.any (fun m => m.role == "system") := by
  unfold createStructuredSummary
  rw [startsWith_structuredSummaryParts]
  by_cases hsys : messages.filter (fun m => m.role == "system") = []
  · have hrhs : messages.any (fun m => m.role == "system") = false := by
      rw [List.filter_eq_nil_iff] at hsys
      rcases hany : messages.any (fun m => m.role == "system") with _ | _
      · rfl
      · obtain ⟨x, hx, hpx⟩ := List.any_eq_true.mp hany
        exact absurd hpx (hsys x hx)
    rw [hrhs, hsys]
    rfl
  · have hrhs : messages.any (fun m => m.role == "system") = true := by
      rcases hfil : messages.filter (fun m => m.role == "system") with _ | ⟨x, t⟩
      · exact absurd hfil hsys
      · have hx : x ∈ messages.filter (fun m => m.role == "system") := by
          rw [hfil]
          exact List.mem_cons_self x t
        have hmf := List.mem_filter.mp hx
        exact List.any_eq_true.mpr ⟨x, hmf.1, hmf.2⟩
    rw [hrhs]
    rcases hm2 : (messages.filter (fun m => m.role == "system")).map Message.content
        with _ | ⟨a, t⟩
    · rw [List.map_eq_nil_iff] at hm2
      exact absurd hm2 hsys
    · rw [hm2]
      rfl

/-- `line.split(':', 1)` keeps only the field before the colon, so index
`[1]` is always `undefined` and the stored first content line is always
the empty string — for every input line. -/
theorem inlineField_empty (line : String) : inlineField line = "" := by
  unfold inlineField jsSplit
  have h : ((jsSplitAll line ':').take 1).get? 1 = none :=
    List.get?_eq_none.mpr (le_trans (List.length_take_le 1 _) (by omega))
  rw [h]
  rfl

/-- C1: the text parser does NOT put the text after the colon into the
message content.  On the spec's scenario input it produces two messages
with EMPTY content (the claimed output is
`[{user,"hello"},{assistant,"hi there"}]`), because the JavaScript
`line.split(':', 1)[1]` is always `undefined` (the limit truncates the
split to the first field); in general the first content line of every
parsed message is `""`. -/
theorem parse_text_inline_content_lost :
    parseTextConversation "User: hello\nAssistant: hi there\n" =
      [⟨"user", ""⟩, ⟨"assistant", ""⟩] ∧
    (∀ line : String, inlineField line = "") :=
  ⟨by decide, inlineField_empty⟩

/-- C3: the hint filter of `transferContextAPI` selects the keys
starting with `'include_'`, but every key of the merged options object
is camel-cased (`includeCodeContext`, ...), so the options object handed
to the adapter layer is empty for every caller-supplied options value —
the include-X flags never reach the adapter. -/
theorem formatting_hints_filtered_to_empty (options : TransferOptions) :
    formattingOptionsOf (mergeOptions options) = [] := rfl

/-- C4: for every message-array input, when the adapter lookup for the
normalized target name fails, `transferContextAPI` returns
`success := true` and the prompt produced by the generic fallback
formatter. -/
theorem transfer_unregistered_target_generic
    (adapters : String → Option JsAdapter) (caps : String → Option ModelCapabilities)
    (now sourceModel targetModel : String) (messages : List Message)
    (options : TransferOptions)
    (h : adapters (normalizeModelName targetModel) = none) :
    (transferContextAPI adapters caps now sourceModel targetModel
        (.arr messages) options).success = true ∧
    (transferContextAPI adapters caps now sourceModel targetModel
        (.arr messages) options).formattedPrompt =
      some (formatGeneric defaultManagerConfig
        (apiSummary
          (extractContext messages (mergeOptions options).lastN
            (mergeOptions options).smartExtraction)
          (mergeOptions options))
        sourceModel targetModel (formattingOptionsOf (mergeOptions options))) := by
  refine ⟨rfl, ?_⟩
  show some (formatForTargetModel adapters defaultManagerConfig targetModel
      (apiSummary
        (extractContext messages (mergeOptions options).lastN
          (mergeOptions options).smartExtraction)
        (mergeOptions options))
      sourceModel (formattingOptionsOf (mergeOptions options))) = _
  unfold formatForTargetModel
  rw [h]

/-- Witness for C4's theorem: a lookup that never finds an adapter. -/
theorem transfer_unregistered_target_generic_witness :
    (transferContextAPI (fun _ => none) (fun _ => none) "2024-01-01T00:00:00Z"
        "gpt-4" "unknown model" (.arr [⟨"user", "hi"⟩]) emptyTransferOptions).success
      = true ∧
    (transferContextAPI (fun _ => none) (fun _ => none) "2024-01-01T00:00:00Z"
        "gpt-4" "unknown model" (.arr [⟨"user", "hi"⟩]) emptyTransferOptions).formattedPrompt
      = some (formatGeneric defaultManagerConfig
          (apiSummary
            (extractContext [⟨"user", "hi"⟩] (mergeOptions emptyTransferOptions).lastN
              (mergeOptions emptyTransferOptions).smartExtraction)
            (mergeOptions emptyTransferOptions))
          "gpt-4" "unknown model" (formattingOptionsOf (mergeOptions emptyTransferOptions))) :=
  transfer_unregistered_target_generic (fun _ => none) (fun _ => none)
    "2024-01-01T00:00:00Z" "gpt-4" "unknown model" [⟨"user", "hi"⟩]
    emptyTransferOptions rfl

/-- C5 (amended): a string `conversationData` is NOT parsed:
`processConversationData` throws
`'File path processing not implemented in this demo'` and
`transferContextAPI` converts that into a `success := false` result;
only message arrays and `messages`/`conversation`-carrying objects
proceed. -/
theorem transfer_string_input_not_parsed
    (adapters : String → Option JsAdapter) (caps : String → Option ModelCapabilities)
    (now sourceModel targetModel s : String) (options : TransferOptions) :
    transferContextAPI adapters caps now sourceModel targetModel (.str s) options =
      { success := false, formattedPrompt := none, metadata := none,
        error := some "File path processing not implemented in this demo",
        errorType := some "Error" } := rfl

/-- C5 counterexample: at a concrete file-path input the transfer does
not proceed on parsed messages — it fails with the not-implemented
error, contradicting the claimed delegation to the Parser. -/
theorem transfer_string_input_cex :
    (transferContextAPI (fun _ => none) (fun _ => none) "2024-01-01T00:00:00Z"
        "chatgpt" "claude" (.str "conversation.json") emptyTransferOptions).success
      = false ∧
    (transferContextAPI (fun _ => none) (fun _ => none) "2024-01-01T00:00:00Z"
        "chatgpt" "claude" (.str "conversation.json") emptyTransferOptions).error
      = some "File path processing not implemented in this demo" :=
  ⟨rfl, rfl⟩

theorem setTransferIndex_transferIndex (m : Option TransferMetadata) (i : Nat) :
    (setTransferIndex m i).transferIndex = some i := by
  cases m <;> rfl

theorem map_metadata_enum (f : Nat × BatchRequest → TransferResult)
    (hf : ∀ p, (f p).metadata.map TransferMetadata.transferIndex = some (some p.1))
    (l : List BatchRequest) :
    ((l.enum.map f).map (fun r => r.metadata.map TransferMetadata.transferIndex)) =
      (List.range l.length).map (fun i => some (some i)) := by
  rw [List.map_map]
  rw [show ((fun r : TransferResult => r.metadata.map TransferMetadata.transferIndex) ∘ f)
    = fun p => some (some p.1) from funext hf]
  rw [show (fun p : Nat × BatchRequest => some (some p.1)) =
    ((fun i : Nat => some (some i)) ∘ Prod.fst) from rfl]
  rw [← List.map_map, List.enum_map_fst]

/-- C8: `batchTransfer` returns one result per request, counts
successes and failures so that they sum to the request count, reports
`success` exactly when no request failed, and tags the i-th result's
metadata with `transferIndex = i`; no request's failure prevents the
later requests from being processed (the result list always has full
length). -/
theorem batch_transfer_contract (adapters : String → Option JsAdapter)
    (caps : String → Option ModelCapabilities) (now : String)
    (transfers : List BatchRequest) :
    (batchTransfer adapters caps now transfers).results.length = transfers.length ∧
    (batchTransfer adapters caps now transfers).totalTransfers = transfers.length ∧
    (batchTransfer adapters caps now transfers).successfulTransfers +
        (batchTransfer adapters caps now transfers).failedTransfers =
      (batchTransfer adapters caps now transfers).totalTransfers ∧
    (batchTransfer adapters caps now transfers).success =
      ((batchTransfer adapters caps now transfers).failedTransfers == 0) ∧
    (batchTransfer adapters caps now transfers).results.map
        (fun r => r.metadata.map TransferMetadata.transferIndex) =
      (List.range transfers.length).map (fun i => some (some i)) := by
  refine ⟨?_, rfl, ?_, rfl, ?_⟩
  · show (transfers.enum.map _).length = transfers.length
    rw [List.length_map, List.enum_length]
  · show ((transfers.enum.map _).filter _).length +
      ((transfers.enum.map _).filter _).length = transfers.length
    rw [← List.length_eq_length_filter_add, List.length_map, List.enum_length]
  · exact map_metadata_enum _
      (fun p => by
        show some ((setTransferIndex _ p.1).transferIndex) = some (some p.1)
        rw [setTransferIndex_transferIndex])
      transfers

/-- C10: `validateConversationFormat` never reports `success` and
`valid` differently — `valid` always equals `success` (any input that
normalizes without error is judged valid). -/
theorem validate_valid_eq_success (data : ConversationData) :
    (validateConversationFormat data).valid = (validateConversationFormat data).success := by
  rcases data with s | l | ⟨(_ | l1), (_ | l2), m⟩ <;> rfl

end MultiMind
